import Mathlib

/-
Verification development for the joystick_task repository.

The repository holds two PsychoPy scripts:
  * src/adaptation_main.py    — a visuomotor adaptation task
  * src/stop-signal_pilot.py  — a stop-signal pilot task

This file gives a shallow embedding of the algorithmic core of both
scripts (the experiment-phase scheduler, the per-frame go-phase
movement-flag logic, the frame-count arithmetic of the phase loops, the
coordinate transforms, the stop-signal staircase and its session loop)
and proves the specification's claims about them.

Modelling conventions:
  * Python floats are modelled as rationals (ℚ) wherever the code only
    does field arithmetic and comparisons, so that everything stays
    executable; the trigonometric coordinate transforms are modelled
    over the reals (ℝ).
  * Python `int(x)` (truncation toward zero) is modelled by `pyInt`.
  * `numpy.arange(k)`-driven loops become folds over `List.range`.
-/

namespace JoystickTask

/-! ## Python numeric helpers -/

/-- Python `int(q)` on a rational: truncation toward zero. -/
def pyInt (q : ℚ) : ℤ :=
  if 0 ≤ q then ⌊q⌋ else ⌈q⌉

/-- Number of iterations of `for frameN in np.arange(int(f * d))`:
`np.arange` of a non-positive bound is empty. -/
def num_frames (f d : ℚ) : ℕ :=
  (pyInt (f * d)).toNat

/-- Python `list * k`: the list repeated `k` times. -/
def pyListMul {α : Type} (l : List α) : ℕ → List α
  | 0 => []
  | k + 1 => l ++ pyListMul l k

theorem pyListMul_length {α : Type} (l : List α) (k : ℕ) :
    (pyListMul l k).length = k * l.length := by
  induction k with
  | zero => simp [pyListMul]
  | succ k ih => simp [pyListMul, ih, Nat.succ_mul, Nat.add_comm]

/-! ## Experiment Phase Scheduler (adaptation_main.py)

Constants from the top of `adaptation_main.py` and the classifier
`ExperimentRunner.determine_experiment_phase`. -/

def NO_PERTURBATION_TRIAL : ℕ := 80
def ADAPTATION_PHASE_START : ℕ := 80
def ADAPTATION_PHASE_END : ℕ := 230

/-- Python `radians(d)`: degrees to radians. -/
noncomputable def radians (d : ℝ) : ℝ := d * Real.pi / 180

/-- Constant `PERTURBATION_ANGLE = radians(60)` from `adaptation_main.py`. -/
noncomputable def PERTURBATION_ANGLE : ℝ := radians 60

inductive ExperimentPhases where
  | NO_PERTURBATION
  | ADAPTATION
  | AFTER_EFFECT
  deriving DecidableEq, Repr

/-- `ExperimentRunner.determine_experiment_phase` from `adaptation_main.py`. -/
def determine_experiment_phase (trial : ℕ) : ExperimentPhases :=
  if trial < NO_PERTURBATION_TRIAL then ExperimentPhases.NO_PERTURBATION
  else if ADAPTATION_PHASE_START ≤ trial ∧ trial ≤ ADAPTATION_PHASE_END then
    ExperimentPhases.ADAPTATION
  else ExperimentPhases.AFTER_EFFECT

/-- The perturbation chosen for a phase in `ExperimentRunner.run`:
0.0 for NO_PERTURBATION, `PERTURBATION_ANGLE` for ADAPTATION,
0.0 for AFTER_EFFECT. -/
noncomputable def perturbation_of_phase : ExperimentPhases → ℝ
  | ExperimentPhases.NO_PERTURBATION => 0
  | ExperimentPhases.ADAPTATION => PERTURBATION_ANGLE
  | ExperimentPhases.AFTER_EFFECT => 0

/-! ## Staircase Controller (stop-signal_pilot.py)

The per-trial SSD update at the end of the trial loop:
```
if not go_list[trial]:
    if full_mov: ssd -= .05
    else:        ssd += .05
```
The script's step is the literal `.05`; the update is stated for an
arbitrary fixed step. -/

/-- One staircase transition: applied with the trial's go/stop label and
its `full_mov` outcome. Go trials (`go = true`) leave the SSD unchanged. -/
def staircase_update (step ssd : ℚ) (go full_mov : Bool) : ℚ :=
  if go = false then
    if full_mov then ssd - step else ssd + step
  else ssd

/-- Folding the staircase over a finite list of `(go, full_mov)` trial
outcomes, starting from `s0`. -/
def staircase_run (step s0 : ℚ) (outcomes : List (Bool × Bool)) : ℚ :=
  outcomes.foldl (fun s o => staircase_update step s o.1 o.2) s0

/-- Number of stop trials in `outcomes` where the movement was withheld
(`full_mov = false`). -/
def countWithheld (outcomes : List (Bool × Bool)) : ℕ :=
  outcomes.countP (fun o => o.1 = false ∧ o.2 = false)

/-- Number of stop trials in `outcomes` where the movement was completed
(`full_mov = true`). -/
def countNotWithheld (outcomes : List (Bool × Bool)) : ℕ :=
  outcomes.countP (fun o => o.1 = false ∧ o.2 = true)

theorem staircase_run_formula (step s0 : ℚ) (outcomes : List (Bool × Bool)) :
    staircase_run step s0 outcomes =
      s0 + step * ((countWithheld outcomes : ℚ) - (countNotWithheld outcomes : ℚ)) := by
  induction outcomes generalizing s0 with
  | nil => simp [staircase_run, countWithheld, countNotWithheld]
  | cons o rest ih =>
    rcases o with ⟨go, full⟩
    have hrun : staircase_run step s0 ((go, full) :: rest)
        = staircase_run step (staircase_update step s0 go full) rest := rfl
    rw [hrun, ih]
    rcases go with _ | _ <;> rcases full with _ | _ <;>
      simp [staircase_update, countWithheld, countNotWithheld, List.countP_cons] <;>
      push_cast <;> ring

/-! ## Go-phase movement flags

Both scripts run, on every frame of the go phase, the same decision on
the scaled radius (`adaptation_main.run_phase` and the go-cue loop of
`stop-signal_pilot.py`):
```
if radius < starting_radius:      cursor.draw()
elif radius < hidden_radius * .9: start_mov = 1
else:                             cursor.draw(); full_mov = 1
```
The state is the pair `(start_mov, full_mov)`; the third component of
the step's result records whether the cursor was drawn on that frame. -/

/-- One frame of the go-phase flag evaluation, on the scaled radius.
Returns the updated `(start_mov, full_mov)` pair and whether the cursor
feedback was drawn on this frame. -/
def go_flags_step {α : Type} [LinearOrderedField α] (sr hr : α)
    (st : Bool × Bool) (radius : α) : (Bool × Bool) × Bool :=
  if radius < sr then (st, true)
  else if radius < hr * (9 / 10) then ((true, st.2), false)
  else ((st.1, true), true)

/-- The `(start_mov, full_mov)` flags after running the go-phase frame
loop over a trace of scaled radii, starting from the reset state
`(false, false)` set at the top of every trial. -/
def run_go_flags {α : Type} [LinearOrderedField α] (sr hr : α)
    (radii : List α) : Bool × Bool :=
  radii.foldl (fun st r => (go_flags_step sr hr st r).1) (false, false)

theorem go_flags_step_mono {α : Type} [LinearOrderedField α] (sr hr : α)
    (st : Bool × Bool) (r : α) :
    (st.1 = true → ((go_flags_step sr hr st r).1).1 = true) ∧
    (st.2 = true → ((go_flags_step sr hr st r).1).2 = true) := by
  unfold go_flags_step
  split <;> [skip; split] <;> simp

theorem go_flags_foldl_mono {α : Type} [LinearOrderedField α] (sr hr : α)
    (radii : List α) (st : Bool × Bool) :
    (st.1 = true → ((radii.foldl (fun st r => (go_flags_step sr hr st r).1) st).1 = true)) ∧
    (st.2 = true → ((radii.foldl (fun st r => (go_flags_step sr hr st r).1) st).2 = true)) := by
  induction radii generalizing st with
  | nil => simp
  | cons r rest ih =>
    refine ⟨fun h1 => ?_, fun h2 => ?_⟩
    · exact (ih _).1 ((go_flags_step_mono sr hr st r).1 h1)
    · exact (ih _).2 ((go_flags_step_mono sr hr st r).2 h2)

/-! ## Claim theorems C1–C4 -/

/-- C1: the Experiment Phase Scheduler classifies every trial index by the
piecewise rule — `t < NO_PERTURBATION_TRIAL` gives NO_PERTURBATION with
perturbation 0, `ADAPTATION_PHASE_START ≤ t ≤ ADAPTATION_PHASE_END` gives
ADAPTATION with the configured fixed angle, every other `t` gives
AFTER_EFFECT with perturbation 0; and the boundary scenario with the
constants 80, 80, 230 gives classify(79) = NO_PERTURBATION,
classify(80) = classify(230) = ADAPTATION, classify(231) = AFTER_EFFECT. -/
theorem C1_experiment_phase_scheduler (t : ℕ) :
    (t < NO_PERTURBATION_TRIAL →
      determine_experiment_phase t = ExperimentPhases.NO_PERTURBATION ∧
      perturbation_of_phase (determine_experiment_phase t) = 0) ∧
    (ADAPTATION_PHASE_START ≤ t ∧ t ≤ ADAPTATION_PHASE_END →
      determine_experiment_phase t = ExperimentPhases.ADAPTATION ∧
      perturbation_of_phase (determine_experiment_phase t) = PERTURBATION_ANGLE) ∧
    (¬ t < NO_PERTURBATION_TRIAL →
      ¬ (ADAPTATION_PHASE_START ≤ t ∧ t ≤ ADAPTATION_PHASE_END) →
      determine_experiment_phase t = ExperimentPhases.AFTER_EFFECT ∧
      perturbation_of_phase (determine_experiment_phase t) = 0) ∧
    determine_experiment_phase 79 = ExperimentPhases.NO_PERTURBATION ∧
    determine_experiment_phase 80 = ExperimentPhases.ADAPTATION ∧
    determine_experiment_phase 230 = ExperimentPhases.ADAPTATION ∧
    determine_experiment_phase 231 = ExperimentPhases.AFTER_EFFECT := by
  refine ⟨fun h => ?_, fun h => ?_, fun h1 h2 => ?_,
    by decide, by decide, by decide, by decide⟩
  · have hc : determine_experiment_phase t = ExperimentPhases.NO_PERTURBATION := by
      simp [determine_experiment_phase, h]
    exact ⟨hc, by simp [hc, perturbation_of_phase]⟩
  · have hn : ¬ t < NO_PERTURBATION_TRIAL := by
      simp only [NO_PERTURBATION_TRIAL, ADAPTATION_PHASE_START] at h ⊢
      omega
    have hc : determine_experiment_phase t = ExperimentPhases.ADAPTATION := by
      simp [determine_experiment_phase, hn, h]
    exact ⟨hc, by simp [hc, perturbation_of_phase]⟩
  · have hc : determine_experiment_phase t = ExperimentPhases.AFTER_EFFECT := by
      simp [determine_experiment_phase, h1, h2]
    exact ⟨hc, by simp [hc, perturbation_of_phase]⟩

theorem C1_experiment_phase_scheduler_witness :
    determine_experiment_phase 100 = ExperimentPhases.ADAPTATION ∧
    perturbation_of_phase (determine_experiment_phase 100) = PERTURBATION_ANGLE :=
  (C1_experiment_phase_scheduler 100).2.1 (by decide)

/-- C2: on every go-phase frame, the flags are evaluated from the scaled
radius by the three-way rule of the source (`radius < starting_radius`
draws the cursor and leaves both flags untouched; a radius in the
transitional zone sets `start_mov` without drawing; a radius at or above
`0.9 * hidden_radius` draws the cursor and sets `full_mov` — the last
clause under the configuration invariant
`starting_radius ≤ 0.9 * hidden_radius`, which the shipped thresholds
1 and 10 satisfy). Consequently a trace that stays at radius 0.5 with
thresholds (1, 10) yields `(false, false)`, and the trace
0.5 → 2 → 9.5, crossing 1 and then 9, yields `(true, true)`. -/
theorem C2_go_phase_movement_flags (sr hr : ℚ) (st : Bool × Bool) (r : ℚ) :
    (r < sr → go_flags_step sr hr st r = (st, true)) ∧
    (sr ≤ r → r < hr * (9 / 10) → go_flags_step sr hr st r = ((true, st.2), false)) ∧
    (sr ≤ hr * (9 / 10) → hr * (9 / 10) ≤ r →
      go_flags_step sr hr st r = ((st.1, true), true)) ∧
    (∀ n : ℕ, run_go_flags (1 : ℚ) 10 (List.replicate n (1 / 2)) = (false, false)) ∧
    run_go_flags (1 : ℚ) 10 [1 / 2, 2, 19 / 2] = (true, true) := by
  refine ⟨fun h => ?_, fun h1 h2 => ?_, fun h0 h => ?_, fun n => ?_, ?_⟩
  · simp [go_flags_step, h]
  · simp [go_flags_step, not_lt.2 h1, h2]
  · simp [go_flags_step, not_lt.2 (le_trans h0 h), not_lt.2 h]
  · induction n with
    | zero => rfl
    | succ n ih =>
      have hstep : (go_flags_step (1 : ℚ) 10 (false, false) (1 / 2)).1 = (false, false) := by
        norm_num [go_flags_step]
      have hunfold : run_go_flags (1 : ℚ) 10 (List.replicate (n + 1) (1 / 2))
          = List.foldl (fun st r => (go_flags_step (1 : ℚ) 10 st r).1)
              ((go_flags_step (1 : ℚ) 10 (false, false) (1 / 2)).1)
              (List.replicate n (1 / 2)) := rfl
      rw [hunfold, hstep]
      exact ih
  · norm_num [run_go_flags, List.foldl, go_flags_step]

theorem C2_go_phase_movement_flags_witness :
    go_flags_step (1 : ℚ) 10 (false, false) (1 / 2) = ((false, false), true) :=
  (C2_go_phase_movement_flags 1 10 (false, false) (1 / 2)).1 (by norm_num)

/-- C3: the staircase leaves the SSD after any finite outcome sequence at
`s0 + step * (#withheld − #notWithheld)`: stop trials with `full_mov`
subtract the step, stop trials without it add the step, go trials leave
the SSD unchanged, and no clamping is applied. -/
theorem C3_staircase_controller (step s0 : ℚ) (outcomes : List (Bool × Bool))
    (ssd : ℚ) (full : Bool) :
    staircase_run step s0 outcomes =
      s0 + step * ((countWithheld outcomes : ℚ) - (countNotWithheld outcomes : ℚ)) ∧
    staircase_update step ssd true full = ssd ∧
    staircase_update step ssd false true = ssd - step ∧
    staircase_update step ssd false false = ssd + step :=
  ⟨staircase_run_formula step s0 outcomes, rfl, rfl, rfl⟩

/-- C4: within a trial the movement flags start from the reset state
`(false, false)` and are monotonic over the go-phase frame sequence:
once `start_mov` or `full_mov` is true after some prefix of the radius
trace, it stays true after any extension of that prefix. -/
theorem C4_movement_flags_monotone (sr hr : ℚ) (pre ext : List ℚ) :
    run_go_flags sr hr ([] : List ℚ) = (false, false) ∧
    ((run_go_flags sr hr pre).1 = true → (run_go_flags sr hr (pre ++ ext)).1 = true) ∧
    ((run_go_flags sr hr pre).2 = true → (run_go_flags sr hr (pre ++ ext)).2 = true) := by
  refine ⟨rfl, fun h => ?_, fun h => ?_⟩
  · rw [run_go_flags, List.foldl_append]
    exact (go_flags_foldl_mono sr hr ext _).1 h
  · rw [run_go_flags, List.foldl_append]
    exact (go_flags_foldl_mono sr hr ext _).2 h

theorem C4_movement_flags_monotone_witness :
    (run_go_flags (1 : ℚ) 10 ([2] ++ [0])).1 = true :=
  (C4_movement_flags_monotone 1 10 [2] [0]).2.1
    (by norm_num [run_go_flags, List.foldl, go_flags_step])

/-! ## Coordinate Transform

`psychopy.tools.coordinatetools.cart2pol(x, y, units="rad")` returns
`(atan2(y, x), hypot(x, y))` and `pol2cart(theta, radius, units="rad")`
returns `(radius * cos(theta), radius * sin(theta))`. Floating point is
modelled by the reals, so "exact inverses up to floating-point
precision" becomes exact equality. -/

/-- `cart2pol(x, y, units="rad")`: angle by two-argument arctangent
(realised as the argument of the complex number `x + y·i`), radius by
`hypot`. -/
noncomputable def cart2pol (x y : ℝ) : ℝ × ℝ :=
  (Complex.arg ⟨x, y⟩, Real.sqrt (x ^ 2 + y ^ 2))

/-- `pol2cart(theta, radius, units="rad")`. -/
noncomputable def pol2cart (theta radius : ℝ) : ℝ × ℝ :=
  (radius * Real.cos theta, radius * Real.sin theta)

/-- The spec's `toPolar(x, y, scale)`: both scripts scale the raw device
sample (`x *= scaling; y *= scaling`) before calling `cart2pol`. -/
noncomputable def toPolar (x y s : ℝ) : ℝ × ℝ :=
  cart2pol (x * s) (y * s)

/-- The spec's `toCartesian(angle, radius, scale)`: `pol2cart` back to
cartesian, undoing the scale so that the raw device sample is recovered. -/
noncomputable def toCartesian (theta radius s : ℝ) : ℝ × ℝ :=
  ((pol2cart theta radius).1 / s, (pol2cart theta radius).2 / s)

/-- The radius returned by `cart2pol` equals the complex absolute value
of `x + y·i`. -/
theorem cart2pol_radius_abs (x y : ℝ) :
    (cart2pol x y).2 = Complex.abs ⟨x, y⟩ := by
  show Real.sqrt (x ^ 2 + y ^ 2) = _
  rw [Complex.abs_apply, Complex.normSq_mk, ← pow_two x, ← pow_two y]

theorem pol2cart_cart2pol (x y : ℝ) :
    pol2cart (cart2pol x y).1 (cart2pol x y).2 = (x, y) := by
  have hx : (cart2pol x y).2 * Real.cos ((cart2pol x y).1) = x := by
    rw [cart2pol_radius_abs]
    exact Complex.abs_mul_cos_arg ⟨x, y⟩
  have hy : (cart2pol x y).2 * Real.sin ((cart2pol x y).1) = y := by
    rw [cart2pol_radius_abs]
    exact Complex.abs_mul_sin_arg ⟨x, y⟩
  simp [pol2cart, hx, hy]

/-- C8: the coordinate transform round-trips: for every `(x, y)` and every
scale `s > 0`, `toCartesian (toPolar x y s) s` recovers `(x, y)` exactly
(the real-number model of "within floating-point tolerance"), the scale
being applied before the conversion to polar, and the radius produced by
`toPolar` is non-negative by construction. -/
theorem C8_coordinate_transform_roundtrip (x y s : ℝ) (hs : 0 < s) :
    toCartesian (toPolar x y s).1 (toPolar x y s).2 s = (x, y) ∧
    0 ≤ (toPolar x y s).2 := by
  constructor
  · have h := pol2cart_cart2pol (x * s) (y * s)
    have h1 : (pol2cart (toPolar x y s).1 (toPolar x y s).2).1 = x * s :=
      congrArg Prod.fst h
    have h2 : (pol2cart (toPolar x y s).1 (toPolar x y s).2).2 = y * s :=
      congrArg Prod.snd h
    have hs0 : s ≠ 0 := ne_of_gt hs
    simp only [toCartesian, h1, h2]
    field_simp
  · exact Real.sqrt_nonneg _

theorem C8_coordinate_transform_roundtrip_witness :
    toCartesian (toPolar 3 4 1).1 (toPolar 3 4 1).2 1 = (3, 4) ∧
    0 ≤ (toPolar 3 4 1).2 :=
  C8_coordinate_transform_roundtrip 3 4 1 one_pos

/-! ## Phase Runner (`ExperimentRunner.run_phase`, adaptation_main.py)

The loop
```
for frame_n in np.arange(int(self.setup.framerate_r * duration)):
    x, y = joy.getX(), -joy.getY()
    x_tmp.append(x); y_tmp.append(y); t_tmp.append(clock.getTime())
    x *= scaling; y *= scaling
    theta, radius = ct.cart2pol(x, y, units="rad")
    theta += perturbation
    cursor.pos = ct.pol2cart(theta, radius, units="rad")
    if go_phase: <movement-flag evaluation on radius>
```
is modelled as a fold over the list of raw device samples, one per
frame; the device is a function from the frame number to the raw
`(x, y, timestamp)` triple it delivers on that frame. -/

/-- The observable state built by `ExperimentRunner.run_phase`: the raw
sample buffers, the history of cursor positions assigned each frame, and
the go-phase movement flags. -/
structure PhaseResult where
  x_tmp : List ℝ
  y_tmp : List ℝ
  t_tmp : List ℝ
  cursor_trace : List (ℝ × ℝ)
  tmp_start : Bool
  tmp_full : Bool

/-- One frame of `ExperimentRunner.run_phase`: append the raw sample,
scale, convert to polar, add the perturbation to the feedback angle
only, position the cursor, and (go phase only) evaluate the movement
flags on the radius. -/
noncomputable def phase_step (scaling pert sr hr : ℝ) (go_phase : Bool)
    (st : PhaseResult) (sample : ℝ × ℝ × ℝ) : PhaseResult :=
  let x := sample.1
  let y := sample.2.1
  let t := sample.2.2
  let p := cart2pol (x * scaling) (y * scaling)
  let theta := p.1 + pert
  let radius := p.2
  let flags :=
    if go_phase then (go_flags_step sr hr (st.tmp_start, st.tmp_full) radius).1
    else (st.tmp_start, st.tmp_full)
  { x_tmp := st.x_tmp ++ [x]
    y_tmp := st.y_tmp ++ [y]
    t_tmp := st.t_tmp ++ [t]
    cursor_trace := st.cursor_trace ++ [pol2cart theta radius]
    tmp_start := flags.1
    tmp_full := flags.2 }

/-- The per-phase initial state: empty sample buffers and cleared flags. -/
def phase_init : PhaseResult := ⟨[], [], [], [], false, false⟩

/-- `run_phase` applied to the samples the device delivers on the
`int(framerate_r * duration)` frames of the phase. -/
noncomputable def run_phase (framerate duration : ℚ) (scaling pert sr hr : ℝ)
    (go_phase : Bool) (device : ℕ → ℝ × ℝ × ℝ) : PhaseResult :=
  ((List.range (num_frames framerate duration)).map device).foldl
    (phase_step scaling pert sr hr go_phase) phase_init

theorem phase_foldl_x (scaling pert sr hr : ℝ) (go : Bool)
    (samples : List (ℝ × ℝ × ℝ)) (st : PhaseResult) :
    (samples.foldl (phase_step scaling pert sr hr go) st).x_tmp
      = st.x_tmp ++ samples.map (fun q => q.1) := by
  induction samples generalizing st with
  | nil => simp
  | cons q rest ih => simp [phase_step, ih]

theorem phase_foldl_y (scaling pert sr hr : ℝ) (go : Bool)
    (samples : List (ℝ × ℝ × ℝ)) (st : PhaseResult) :
    (samples.foldl (phase_step scaling pert sr hr go) st).y_tmp
      = st.y_tmp ++ samples.map (fun q => q.2.1) := by
  induction samples generalizing st with
  | nil => simp
  | cons q rest ih => simp [phase_step, ih]

theorem phase_foldl_t (scaling pert sr hr : ℝ) (go : Bool)
    (samples : List (ℝ × ℝ × ℝ)) (st : PhaseResult) :
    (samples.foldl (phase_step scaling pert sr hr go) st).t_tmp
      = st.t_tmp ++ samples.map (fun q => q.2.2) := by
  induction samples generalizing st with
  | nil => simp
  | cons q rest ih => simp [phase_step, ih]

theorem phase_foldl_flags_pert (scaling sr hr : ℝ) (go : Bool) (p1 p2 : ℝ)
    (samples : List (ℝ × ℝ × ℝ)) (st1 st2 : PhaseResult)
    (h1 : st1.tmp_start = st2.tmp_start) (h2 : st1.tmp_full = st2.tmp_full) :
    ((samples.foldl (phase_step scaling p1 sr hr go) st1).tmp_start
        = (samples.foldl (phase_step scaling p2 sr hr go) st2).tmp_start) ∧
    ((samples.foldl (phase_step scaling p1 sr hr go) st1).tmp_full
        = (samples.foldl (phase_step scaling p2 sr hr go) st2).tmp_full) := by
  induction samples generalizing st1 st2 with
  | nil => exact ⟨h1, h2⟩
  | cons q rest ih =>
    apply ih
    · simp [phase_step, h1, h2]
    · simp [phase_step, h1, h2]

/-- C7: the recorded joystick trace is the raw, unscaled device samples
and does not depend on the perturbation — `run_phase` appends `x`, `y`
and the timestamp before the scaling is applied, so for any two
perturbation angles the `(x, y, t)` buffers (and even the movement
flags) coincide; the perturbation enters only the cursor feedback. -/
theorem C7_trace_independent_of_perturbation (f d : ℚ) (scaling sr hr p1 p2 : ℝ)
    (go : Bool) (device : ℕ → ℝ × ℝ × ℝ) :
    (run_phase f d scaling p1 sr hr go device).x_tmp
        = ((List.range (num_frames f d)).map device).map (fun q => q.1) ∧
    (run_phase f d scaling p1 sr hr go device).y_tmp
        = ((List.range (num_frames f d)).map device).map (fun q => q.2.1) ∧
    (run_phase f d scaling p1 sr hr go device).t_tmp
        = ((List.range (num_frames f d)).map device).map (fun q => q.2.2) ∧
    (run_phase f d scaling p1 sr hr go device).x_tmp
        = (run_phase f d scaling p2 sr hr go device).x_tmp ∧
    (run_phase f d scaling p1 sr hr go device).y_tmp
        = (run_phase f d scaling p2 sr hr go device).y_tmp ∧
    (run_phase f d scaling p1 sr hr go device).t_tmp
        = (run_phase f d scaling p2 sr hr go device).t_tmp ∧
    (run_phase f d scaling p1 sr hr go device).tmp_start
        = (run_phase f d scaling p2 sr hr go device).tmp_start ∧
    (run_phase f d scaling p1 sr hr go device).tmp_full
        = (run_phase f d scaling p2 sr hr go device).tmp_full := by
  have hx1 := phase_foldl_x scaling p1 sr hr go
    ((List.range (num_frames f d)).map device) phase_init
  have hx2 := phase_foldl_x scaling p2 sr hr go
    ((List.range (num_frames f d)).map device) phase_init
  have hy1 := phase_foldl_y scaling p1 sr hr go
    ((List.range (num_frames f d)).map device) phase_init
  have hy2 := phase_foldl_y scaling p2 sr hr go
    ((List.range (num_frames f d)).map device) phase_init
  have ht1 := phase_foldl_t scaling p1 sr hr go
    ((List.range (num_frames f d)).map device) phase_init
  have ht2 := phase_foldl_t scaling p2 sr hr go
    ((List.range (num_frames f d)).map device) phase_init
  have hfl := phase_foldl_flags_pert scaling sr hr go p1 p2
    ((List.range (num_frames f d)).map device) phase_init phase_init rfl rfl
  simp only [run_phase, phase_init] at *
  refine ⟨by simpa using hx1, by simpa using hy1, by simpa using ht1,
    ?_, ?_, ?_, hfl.1, hfl.2⟩
  · rw [hx1, hx2]
  · rw [hy1, hy2]
  · rw [ht1, ht2]

/-- C5 (amended): the Phase Runner runs exactly `int(frameRate * duration)`
frame iterations — truncation toward zero, not rounding — each iteration
sampling the device once, so a phase of duration `d` at frame rate `f`
appends exactly `int(f * d)` samples to each buffer of the trial trace. -/
theorem C5_phase_sample_count (f d : ℚ) (scaling pert sr hr : ℝ) (go : Bool)
    (device : ℕ → ℝ × ℝ × ℝ) :
    (run_phase f d scaling pert sr hr go device).x_tmp.length = (pyInt (f * d)).toNat ∧
    (run_phase f d scaling pert sr hr go device).y_tmp.length = (pyInt (f * d)).toNat ∧
    (run_phase f d scaling pert sr hr go device).t_tmp.length = (pyInt (f * d)).toNat := by
  refine ⟨?_, ?_, ?_⟩
  · rw [run_phase, phase_foldl_x]; simp [phase_init, num_frames]
  · rw [run_phase, phase_foldl_y]; simp [phase_init, num_frames]
  · rw [run_phase, phase_foldl_t]; simp [phase_init, num_frames]

/-- C5 counterexample: the claim "exactly round(frameRate * duration)
iterations" fails at frame rate 2 and duration 2/5 — the code runs
`int(4/5) = 0` iterations while `round(4/5) = 1`, so the number of
samples appended differs from the claimed count. -/
theorem C5_phase_sample_count_cex :
    ¬ ((run_phase 2 (2 / 5) 12 0 1 10 false
          (fun _ => ((0 : ℝ), (0 : ℝ), (0 : ℝ)))).x_tmp.length
        = (round ((2 : ℚ) * (2 / 5))).toNat) := by
  have h1 : (run_phase 2 (2 / 5) 12 0 1 10 false
      (fun _ => ((0 : ℝ), (0 : ℝ), (0 : ℝ)))).x_tmp.length = 0 := by
    rw [run_phase, phase_foldl_x]
    have hn : num_frames 2 (2 / 5) = 0 := by norm_num [num_frames, pyInt]
    simp [phase_init, hn]
  have h2 : (round ((2 : ℚ) * (2 / 5))).toNat = 1 := by
    rw [round_eq]; norm_num
  rw [h1, h2]
  norm_num

/-! ## Stop-signal go-cue frame loop (stop-signal_pilot.py)

The GO-cue loop of the stop-signal script additionally repaints the
target red at the stop-signal delay on stop trials:
```
for frameN in np.arange(int(framerate_r * go_time)):
    <sample, append, scale, cart2pol, cursor.pos>
    if frameN == int(framerate_r * ssd) and not go_list[trial]:
        target.fillColor = 'red'; target.lineColor = 'red'
    target.draw()
    <movement-flag evaluation on radius>
```
`go = true` is a go trial (`go_list[trial] == 1`), `go = false` a stop
trial. The target starts the loop green (set just before it);
`target_red` records whether it has been switched to the stop cue. -/

/-- The observable state of the stop-signal go-cue frame loop. -/
structure SSGoState where
  x_trial : List ℝ
  y_trial : List ℝ
  t_trial : List ℝ
  target_red : Bool
  start_mov : Bool
  full_mov : Bool

/-- One frame (with its frame number) of the stop-signal go-cue loop. -/
noncomputable def ss_go_step (scaling sr hr : ℝ) (framerate ssd : ℚ) (go : Bool)
    (device : ℕ → ℝ × ℝ × ℝ) (st : SSGoState) (frameN : ℕ) : SSGoState :=
  let q := device frameN
  let p := cart2pol (q.1 * scaling) (q.2.1 * scaling)
  let radius := p.2
  let red :=
    if (frameN : ℤ) = pyInt (framerate * ssd) ∧ go = false then true else st.target_red
  let flags := (go_flags_step sr hr (st.start_mov, st.full_mov) radius).1
  { x_trial := st.x_trial ++ [q.1]
    y_trial := st.y_trial ++ [q.2.1]
    t_trial := st.t_trial ++ [q.2.2]
    target_red := red
    start_mov := flags.1
    full_mov := flags.2 }

/-- State at the top of the go-cue loop: empty buffers for this phase,
target green, movement flags reset earlier in the trial. -/
def ss_go_init : SSGoState := ⟨[], [], [], false, false, false⟩

/-- The state after the first `k` frames of the go-cue loop (the loop
itself runs `int(framerate_r * go_time)` frames, so the prefix is capped
there). -/
noncomputable def ss_go_upto (scaling sr hr : ℝ) (framerate go_time ssd : ℚ)
    (go : Bool) (device : ℕ → ℝ × ℝ × ℝ) (k : ℕ) : SSGoState :=
  ((List.range (num_frames framerate go_time)).take k).foldl
    (ss_go_step scaling sr hr framerate ssd go device) ss_go_init

/-- The state at the end of the go-cue loop. -/
noncomputable def ss_go_run (scaling sr hr : ℝ) (framerate go_time ssd : ℚ)
    (go : Bool) (device : ℕ → ℝ × ℝ × ℝ) : SSGoState :=
  (List.range (num_frames framerate go_time)).foldl
    (ss_go_step scaling sr hr framerate ssd go device) ss_go_init

theorem ss_go_foldl_red (scaling sr hr : ℝ) (f ssd : ℚ) (go : Bool)
    (device : ℕ → ℝ × ℝ × ℝ) (l : List ℕ) (st : SSGoState) :
    (l.foldl (ss_go_step scaling sr hr f ssd go device) st).target_red
      = (st.target_red ||
          (!go && l.any (fun i => decide ((i : ℤ) = pyInt (f * ssd))))) := by
  induction l generalizing st with
  | nil => simp
  | cons i rest ih =>
    rw [List.foldl_cons, ih]
    rcases go with _ | _ <;>
      by_cases hi : (i : ℤ) = pyInt (f * ssd) <;>
      simp [ss_go_step, hi]

theorem ss_go_foldl_flags_go (scaling sr hr : ℝ) (f ssd : ℚ) (g1 g2 : Bool)
    (device : ℕ → ℝ × ℝ × ℝ) (l : List ℕ) (st1 st2 : SSGoState)
    (h1 : st1.start_mov = st2.start_mov) (h2 : st1.full_mov = st2.full_mov) :
    ((l.foldl (ss_go_step scaling sr hr f ssd g1 device) st1).start_mov
        = (l.foldl (ss_go_step scaling sr hr f ssd g2 device) st2).start_mov) ∧
    ((l.foldl (ss_go_step scaling sr hr f ssd g1 device) st1).full_mov
        = (l.foldl (ss_go_step scaling sr hr f ssd g2 device) st2).full_mov) := by
  induction l generalizing st1 st2 with
  | nil => exact ⟨h1, h2⟩
  | cons i rest ih =>
    apply ih
    · simp [ss_go_step, h1, h2]
    · simp [ss_go_step, h1, h2]

theorem ss_go_foldl_x (scaling sr hr : ℝ) (f ssd : ℚ) (go : Bool)
    (device : ℕ → ℝ × ℝ × ℝ) (l : List ℕ) (st : SSGoState) :
    (l.foldl (ss_go_step scaling sr hr f ssd go device) st).x_trial
      = st.x_trial ++ l.map (fun i => (device i).1) := by
  induction l generalizing st with
  | nil => simp
  | cons i rest ih => simp [ss_go_step, ih]

theorem ss_go_foldl_y (scaling sr hr : ℝ) (f ssd : ℚ) (go : Bool)
    (device : ℕ → ℝ × ℝ × ℝ) (l : List ℕ) (st : SSGoState) :
    (l.foldl (ss_go_step scaling sr hr f ssd go device) st).y_trial
      = st.y_trial ++ l.map (fun i => (device i).2.1) := by
  induction l generalizing st with
  | nil => simp
  | cons i rest ih => simp [ss_go_step, ih]

theorem ss_go_foldl_t (scaling sr hr : ℝ) (f ssd : ℚ) (go : Bool)
    (device : ℕ → ℝ × ℝ × ℝ) (l : List ℕ) (st : SSGoState) :
    (l.foldl (ss_go_step scaling sr hr f ssd go device) st).t_trial
      = st.t_trial ++ l.map (fun i => (device i).2.2) := by
  induction l generalizing st with
  | nil => simp
  | cons i rest ih => simp [ss_go_step, ih]

theorem range_any_eq (m : ℕ) (v : ℤ) :
    ((List.range m).any (fun i => decide ((i : ℤ) = v)) = true) ↔
      (0 ≤ v ∧ v < (m : ℤ)) := by
  rw [List.any_eq_true]
  constructor
  · rintro ⟨i, hi, hiv⟩
    rw [List.mem_range] at hi
    have : (i : ℤ) = v := by simpa using hiv
    omega
  · rintro ⟨h0, hm⟩
    refine ⟨v.toNat, ?_, ?_⟩
    · rw [List.mem_range]; omega
    · simp; omega

/-- C6: in the stop-signal go-cue loop, the target switches to the red
stop cue exactly at the frame with index `int(framerate_r * ssd)` — after
running any prefix of `k` frames the target is red iff the prefix
reaches that frame index — it never switches on go trials, and sampling
and movement-flag evaluation are unaffected by the cue: the trace
buffers and both flags after the loop coincide between a stop trial and
a go trial over the same device input. -/
theorem C6_stop_cue_timing (scaling sr hr : ℝ) (f gt ssd : ℚ)
    (device : ℕ → ℝ × ℝ × ℝ) (k : ℕ) :
    (ss_go_upto scaling sr hr f gt ssd true device k).target_red = false ∧
    ((ss_go_upto scaling sr hr f gt ssd false device k).target_red = true ↔
      (0 ≤ pyInt (f * ssd) ∧
        pyInt (f * ssd) < ((min k (num_frames f gt) : ℕ) : ℤ))) ∧
    (ss_go_run scaling sr hr f gt ssd false device).x_trial
        = (ss_go_run scaling sr hr f gt ssd true device).x_trial ∧
    (ss_go_run scaling sr hr f gt ssd false device).y_trial
        = (ss_go_run scaling sr hr f gt ssd true device).y_trial ∧
    (ss_go_run scaling sr hr f gt ssd false device).t_trial
        = (ss_go_run scaling sr hr f gt ssd true device).t_trial ∧
    (ss_go_run scaling sr hr f gt ssd false device).start_mov
        = (ss_go_run scaling sr hr f gt ssd true device).start_mov ∧
    (ss_go_run scaling sr hr f gt ssd false device).full_mov
        = (ss_go_run scaling sr hr f gt ssd true device).full_mov := by
  have hfl := ss_go_foldl_flags_go scaling sr hr f ssd false true device
    (List.range (num_frames f gt)) ss_go_init ss_go_init rfl rfl
  refine ⟨?_, ?_, ?_, ?_, ?_, hfl.1, hfl.2⟩
  · rw [ss_go_upto, ss_go_foldl_red]
    simp [ss_go_init]
  · rw [ss_go_upto, ss_go_foldl_red, List.take_range]
    simp only [ss_go_init, Bool.false_or, Bool.not_false, Bool.true_and]
    rw [range_any_eq]
  · rw [ss_go_run, ss_go_run, ss_go_foldl_x, ss_go_foldl_x]
  · rw [ss_go_run, ss_go_run, ss_go_foldl_y, ss_go_foldl_y]
  · rw [ss_go_run, ss_go_run, ss_go_foldl_t, ss_go_foldl_t]

/-! ## Target angle list

Both scripts build
`[radians(target_angle * i) for i in np.arange(5)] * int(n_trial / 5)`
and index it with `angle_list[trial]` for `trial` up to `n_trial - 1`. -/

/-- `ExperimentRunner.generate_angle_list` (and the identical
`angle_list` of the stop-signal script): the five target directions
repeated `int(n_trial / 5)` times. -/
noncomputable def generate_angle_list (target_angle : ℝ) (n_trial : ℕ) : List ℝ :=
  pyListMul ((List.range 5).map (fun i : ℕ => radians (target_angle * (i : ℝ)))) (n_trial / 5)

/-- C9: the generated angle list has length `5 * (n_trial / 5)`, so the
per-trial lookup `angle_list[trial]` stays in bounds for every trial
index below `n_trial` iff `n_trial` is divisible by 5; when it is not,
every trial index from `5 * (n_trial / 5)` on indexes past the end. -/
theorem C9_angle_list_bounds (a : ℝ) (n : ℕ) :
    (generate_angle_list a n).length = 5 * (n / 5) ∧
    ((∀ t, t < n → t < (generate_angle_list a n).length) ↔ 5 ∣ n) ∧
    (¬ 5 ∣ n → ∀ t, 5 * (n / 5) ≤ t → ¬ t < (generate_angle_list a n).length) := by
  have hlen : (generate_angle_list a n).length = 5 * (n / 5) := by
    have hbase : ((List.range 5).map (fun i : ℕ => radians (a * (i : ℝ)))).length = 5 := by
      rw [List.length_map, List.length_range]
    rw [generate_angle_list, pyListMul_length, hbase, Nat.mul_comm]
  refine ⟨hlen, ⟨?_, ?_⟩, ?_⟩
  · intro h
    by_contra hnd
    have hle : n / 5 * 5 ≤ n := Nat.div_mul_le_self n 5
    have hne : 5 * (n / 5) ≠ n := fun he => hnd ⟨n / 5, he.symm⟩
    have hlt : 5 * (n / 5) < n := by omega
    have := h (5 * (n / 5)) hlt
    rw [hlen] at this
    omega
  · intro hd t ht
    rw [hlen]
    have : 5 * (n / 5) = n := Nat.mul_div_cancel' hd
    omega
  · intro _ t hge
    rw [hlen]
    omega

theorem C9_angle_list_bounds_witness :
    ¬ (5 < (generate_angle_list 45 7).length) :=
  (C9_angle_list_bounds 45 7).2.2 (by decide) 5 (by decide)

/-! ## Stop-signal session loop: SSD logging order

Each iteration of the trial loop of `stop-signal_pilot.py` logs the
trial's row — `data_dict["SSD"].append(ssd)` with the `ssd` currently in
effect — and saves the dataframe and the joystick trace, and only then
runs the staircase update. The session is modelled at the trace level:
each trial is its go/stop label plus the scaled radius trace of its
go phase, from which `full_mov` is evaluated. -/

/-- The per-trial row of the stop-signal session that the claims are
about: the logged SSD, the go/stop label and the movement flags. -/
structure SSRecord where
  SSD : ℚ
  go : Bool
  start_mov : Bool
  full_mov : Bool

/-- Placeholder row for out-of-range `getD` lookups. -/
def defaultSSRecord : SSRecord := ⟨0, true, false, false⟩

/-- The `(go, full_mov)` outcome a trial contributes to the staircase. -/
def trial_outcome (sr hr : ℚ) (tr : Bool × List ℚ) : Bool × Bool :=
  (tr.1, (run_go_flags sr hr tr.2).2)

/-- The stop-signal session loop: every trial logs its row with the SSD
currently in effect, and the staircase update runs only afterwards,
feeding the next trial. -/
def ss_session (sr hr step : ℚ) : ℚ → List (Bool × List ℚ) → List SSRecord
  | _, [] => []
  | ssd, tr :: rest =>
    let flags := run_go_flags sr hr tr.2
    ⟨ssd, tr.1, flags.1, flags.2⟩ ::
      ss_session sr hr step (staircase_update step ssd tr.1 flags.2) rest

theorem staircase_run_append_single (step s0 : ℚ) (l : List (Bool × Bool)) (o : Bool × Bool) :
    staircase_run step s0 (l ++ [o])
      = staircase_update step (staircase_run step s0 l) o.1 o.2 := by
  rw [staircase_run, staircase_run, List.foldl_append]
  rfl

theorem ss_session_length (sr hr step s0 : ℚ) (trials : List (Bool × List ℚ)) :
    (ss_session sr hr step s0 trials).length = trials.length := by
  induction trials generalizing s0 with
  | nil => rfl
  | cons tr rest ih => simp [ss_session, ih]

theorem ss_session_getD_SSD (sr hr step : ℚ) (trials : List (Bool × List ℚ)) :
    ∀ (s0 : ℚ) (i : ℕ), i < trials.length →
      ((ss_session sr hr step s0 trials).getD i defaultSSRecord).SSD
        = staircase_run step s0 ((trials.map (trial_outcome sr hr)).take i) := by
  induction trials with
  | nil => intro s0 i h; simp at h
  | cons tr rest ih =>
    intro s0 i h
    match i with
    | 0 => simp [ss_session, staircase_run]
    | j + 1 =>
      have hj : j < rest.length := by simpa using h
      have hsesh : ss_session sr hr step s0 (tr :: rest)
          = ⟨s0, tr.1, (run_go_flags sr hr tr.2).1, (run_go_flags sr hr tr.2).2⟩ ::
            ss_session sr hr step
              (staircase_update step s0 tr.1 (run_go_flags sr hr tr.2).2) rest := rfl
      rw [hsesh, List.getD_cons_succ, ih _ j hj]
      have htake : ((tr :: rest).map (trial_outcome sr hr)).take (j + 1)
          = trial_outcome sr hr tr :: ((rest.map (trial_outcome sr hr)).take j) := rfl
      rw [htake]
      rfl

theorem ss_session_getD_go (sr hr step : ℚ) (trials : List (Bool × List ℚ)) :
    ∀ (s0 : ℚ) (i : ℕ), i < trials.length →
      ((ss_session sr hr step s0 trials).getD i defaultSSRecord).go
          = ((trials.map (trial_outcome sr hr)).getD i (true, false)).1 ∧
      ((ss_session sr hr step s0 trials).getD i defaultSSRecord).full_mov
          = ((trials.map (trial_outcome sr hr)).getD i (true, false)).2 := by
  induction trials with
  | nil => intro s0 i h; simp at h
  | cons tr rest ih =>
    intro s0 i h
    match i with
    | 0 => exact ⟨rfl, rfl⟩
    | j + 1 =>
      have hj : j < rest.length := by simpa using h
      exact ih _ j hj

/-- C10: the SSD written to a trial's record is the SSD in effect during
that trial — the staircase update runs only after the row is assembled —
so record `i` carries the staircase state after the first `i` outcomes,
and the update caused by trial `i` first appears in record `i + 1`:
`record (i+1) .SSD = staircase_update step (record i).SSD (record i).go
(record i).full_mov`. -/
theorem C10_ssd_logging_order (sr hr step s0 : ℚ)
    (trials : List (Bool × List ℚ)) (i : ℕ) :
    (ss_session sr hr step s0 trials).length = trials.length ∧
    (i < trials.length →
      ((ss_session sr hr step s0 trials).getD i defaultSSRecord).SSD
        = staircase_run step s0 ((trials.map (trial_outcome sr hr)).take i)) ∧
    (i + 1 < trials.length →
      ((ss_session sr hr step s0 trials).getD (i + 1) defaultSSRecord).SSD
        = staircase_update step
            (((ss_session sr hr step s0 trials).getD i defaultSSRecord).SSD)
            (((ss_session sr hr step s0 trials).getD i defaultSSRecord).go)
            (((ss_session sr hr step s0 trials).getD i defaultSSRecord).full_mov)) := by
  refine ⟨ss_session_length sr hr step s0 trials,
    fun h => ss_session_getD_SSD sr hr step trials s0 i h, fun h => ?_⟩
  have hi : i < trials.length := Nat.lt_of_succ_lt h
  have hgo := ss_session_getD_go sr hr step trials s0 i hi
  rw [ss_session_getD_SSD sr hr step trials s0 (i + 1) h,
    ss_session_getD_SSD sr hr step trials s0 i hi, hgo.1, hgo.2]
  have hi' : i < (trials.map (trial_outcome sr hr)).length := by simpa using hi
  have htake : ((trials.map (trial_outcome sr hr)).take (i + 1))
      = ((trials.map (trial_outcome sr hr)).take i)
        ++ [(trials.map (trial_outcome sr hr)).getD i (true, false)] := by
    rw [List.take_succ, List.getElem?_eq_getElem hi', List.getD_eq_getElem _ _ hi']
    rfl
  rw [htake, staircase_run_append_single]

theorem C10_ssd_logging_order_witness :
    ((ss_session 1 10 (1 / 20) (1 / 5) [(false, [19 / 2]), (true, [0])]).getD 1
        defaultSSRecord).SSD
      = staircase_update (1 / 20)
          (((ss_session 1 10 (1 / 20) (1 / 5)
              [(false, [19 / 2]), (true, [0])]).getD 0 defaultSSRecord).SSD)
          (((ss_session 1 10 (1 / 20) (1 / 5)
              [(false, [19 / 2]), (true, [0])]).getD 0 defaultSSRecord).go)
          (((ss_session 1 10 (1 / 20) (1 / 5)
              [(false, [19 / 2]), (true, [0])]).getD 0 defaultSSRecord).full_mov) :=
  (C10_ssd_logging_order 1 10 (1 / 20) (1 / 5) [(false, [19 / 2]), (true, [0])] 0).2.2
    (by norm_num)

end JoystickTask
